import Mathlib

/-!
Shallow embedding of the bench-sort service for checking the claims of its
specification.  The Go API server (api/go/main.go and the fuller server
variant with auth/DB support) and the C++ engine (sortbench.cpp,
src/sortbench_core.cpp) are translated into executable Lean definitions;
the theorems at the end of the file settle the claims against them.
-/

set_option autoImplicit false

/-- Server configuration, mirroring the Go package-level variables
`maxN` (10_000_000), `maxRepeats` (50), `maxThreads` (0 = unlimited),
`maxJobs` (64) and `defaultTimeout` (2 minutes, expressed here in ms). -/
structure ServerConfig where
  maxN : Int
  maxRepeats : Int
  maxThreads : Int
  maxJobs : Int
  defaultTimeoutMs : Int
deriving DecidableEq, Repr

/-- Default values of the Go package-level configuration variables. -/
def defaultServerConfig : ServerConfig :=
  ⟨10000000, 50, 0, 64, 120000⟩

/-- Model of the Go `RunRequest` JSON payload.  Field names follow the Go
struct; the float64 tunables `ZipfS` and `RunsAlpha` are modelled as
rationals (their only uses in the handlers are `> 0` tests and rendering). -/
structure RunRequest where
  N : Int
  dist : String
  typ : String
  repeats : Int
  warmup : Int
  seed : Option Nat
  algos : List String
  threads : Int
  assertSorted : Bool
  baseline : Option String
  plugins : List String
  timeoutMs : Int
  partialPct : Int
  dupValues : Int
  zipfS : Rat
  runsAlpha : Rat
  staggerBlock : Int
deriving DecidableEq, Repr

/-- The element type list returned by the Go helper `types()`. -/
def types : List String := ["i32", "u32", "i64", "u64", "f32", "f64", "str"]

/-- The distribution list returned by the Go helper `dists()`. -/
def dists : List String :=
  ["random", "partial", "dups", "reverse", "sorted", "saw", "runs", "gauss",
   "exp", "zipf", "organpipe", "staggered", "runs_ht"]

/-- Translation of the Go `validate` function: in order it checks
`N` against `[1, maxN]`, `repeats` against `[0, maxRepeats]`, `threads`
against `maxThreads` only when a cap is set, then membership of `dist`
and `type` in their enumerations. -/
def validate (cfg : ServerConfig) (req : RunRequest) : Except String Unit :=
  if req.N ≤ 0 ∨ cfg.maxN < req.N then
    Except.error ("N must be in [1," ++ toString cfg.maxN ++ "]")
  else if req.repeats < 0 ∨ cfg.maxRepeats < req.repeats then
    Except.error ("repeats must be in [0," ++ toString cfg.maxRepeats ++ "]")
  else if 0 < cfg.maxThreads ∧ cfg.maxThreads < req.threads then
    Except.error ("threads must be <= " ++ toString cfg.maxThreads)
  else if dists.contains req.dist = false then
    Except.error "invalid dist"
  else if types.contains req.typ = false then
    Except.error "invalid type"
  else
    Except.ok ()

/-- Decimal rendering standing in for Go strconv.FormatFloat on the rational
models of the float64 tunables.  The exact digit string is irrelevant to
every claim; only the `> 0` guards feed it. -/
def fmtRat (q : Rat) : String := toString q

/-- Character-level splitter, the model of Go strings.Split and of line
splitting (kept on char lists so that proofs can evaluate it). -/
def splitOnList (sep : Char) : List Char → List (List Char)
  | [] => [[]]
  | c :: cs =>
    let r := splitOnList sep cs
    if c = sep then [] :: r
    else
      match r with
      | [] => [[c]]
      | g :: gs => (c :: g) :: gs

/-- Model of Go strings.TrimSpace on a char list: drop leading and trailing
whitespace. -/
def trimList (cs : List Char) : List Char :=
  ((cs.dropWhile Char.isWhitespace).reverse.dropWhile Char.isWhitespace).reverse

/-- String-level TrimSpace. -/
def trimS (s : String) : String := String.mk (trimList s.data)

/-- String-level Split. -/
def splitS (sep : Char) (s : String) : List String :=
  (splitOnList sep s.data).map String.mk

/-- Character-level HasPrefix test. -/
def startsWithS (s p : String) : Bool := p.data.isPrefixOf s.data

/-- Dropping the first n characters of a string. -/
def dropS (s : String) (n : Nat) : String := String.mk (s.data.drop n)

/-- Model of strings.Join with a comma separator (used for the --algo
value). -/
def joinComma : List String → String
  | [] => ""
  | [x] => x
  | x :: xs => x ++ "," ++ joinComma xs

/-- Value-level model of std::max on the engine's int repeat counts. -/
def cppMax (a b : Int) : Int := if a ≤ b then b else a

/-- Translation of the Go `buildArgs` function: flag-by-flag construction of
the sortbench child-process argument vector.  Optional numeric flags are
emitted only when the request value is strictly positive; `--repeat` in
particular is omitted when `repeats = 0`. -/
def buildArgs (req : RunRequest) : List String :=
  ["--N", toString req.N, "--dist", req.dist, "--type", req.typ,
   "--format", "json"]
  ++ (if 0 < req.repeats then ["--repeat", toString req.repeats] else [])
  ++ (if 0 < req.warmup then ["--warmup", toString req.warmup] else [])
  ++ (match req.seed with
      | some s => ["--seed", toString s]
      | none => [])
  ++ (if 0 < req.partialPct then ["--partial-pct", toString req.partialPct] else [])
  ++ (if 0 < req.dupValues then ["--dups-k", toString req.dupValues] else [])
  ++ (if 0 < req.zipfS then ["--zipf-s", fmtRat req.zipfS] else [])
  ++ (if 0 < req.runsAlpha then ["--runs-alpha", fmtRat req.runsAlpha] else [])
  ++ (if 0 < req.staggerBlock then ["--stagger-block", toString req.staggerBlock] else [])
  ++ (if req.algos ≠ [] then ["--algo", joinComma req.algos] else [])
  ++ (if 0 < req.threads then ["--threads", toString req.threads] else [])
  ++ (if req.assertSorted then ["--assert-sorted"] else [])
  ++ (match req.baseline with
      | some b => if b ≠ "" then ["--baseline", b] else []
      | none => [])
  ++ ((req.plugins.filter (fun p => p ≠ "")).flatMap (fun p => ["--plugin", p]))
  ++ ["--no-file"]

/-- Deadline selection in the sync `runHandler` (identical in both Go
variants): start from the server default and override it with the request
value whenever `TimeoutMs > 0`. -/
def runDeadlineMs (cfg : ServerConfig) (req : RunRequest) : Int :=
  if 0 < req.timeoutMs then req.timeoutMs else cfg.defaultTimeoutMs

/-- Outcome of the sync handler up to the point where the engine call is
issued: either a 400 validation rejection or an engine invocation under the
computed deadline. -/
inductive RunDispatch
  | badRequest (msg : String)
  | run (deadlineMs : Int)
deriving DecidableEq, Repr

/-- Translation of the control flow of `runHandler` before engine execution:
decode (not modelled), validate, then derive the context deadline. -/
def runHandler (cfg : ServerConfig) (req : RunRequest) : RunDispatch :=
  match validate cfg req with
  | Except.error e => RunDispatch.badRequest e
  | Except.ok _ => RunDispatch.run (runDeadlineMs cfg req)

/-! Engine repeat-count semantics.  The CLI (`sortbench.cpp`) parses
`--repeat` with default 5 and clamps non-positive values to 1; the core
(`run_for_type_core`) then runs `max(1, cfg.repeats)` timed passes.  The
cgo path passes the request's `repeats` value straight into `CoreConfig`. -/

/-- Flags of the sortbench CLI that consume a following value argument,
restricted to the flags `buildArgs` can emit. -/
def valueFlags : List String :=
  ["--N", "--dist", "--type", "--format", "--warmup", "--seed",
   "--partial-pct", "--dups-k", "--zipf-s", "--runs-alpha",
   "--stagger-block", "--algo", "--threads", "--baseline", "--plugin"]

/-- Stand-in for `std::stoi` on the canonical decimal strings produced by
`buildArgs`. -/
def stoiD (v : String) : Int := (v.toInt?).getD 0

/-- Projection of sortbench's `parse_args` onto the `--repeat` option over an
argument vector produced by `buildArgs`: `--repeat`/`-r` (or the inline
`--repeat=` form) sets `opt.repeats` to the parsed value clamped up to 1;
other value-taking flags consume their value; the accumulator starts at the
`Options` default of 5. -/
def cliRepeats : List String → Int → Int
  | [], acc => acc
  | a :: rest, acc =>
    if a = "--repeat" ∨ a = "-r" then
      match rest with
      | v :: rest2 =>
        let r := stoiD v
        cliRepeats rest2 (if r ≤ 0 then 1 else r)
      | [] => acc
    else if startsWithS a "--repeat=" then
      let r := stoiD (dropS a 9)
      cliRepeats rest (if r ≤ 0 then 1 else r)
    else if valueFlags.contains a then
      match rest with
      | _ :: rest2 => cliRepeats rest2 acc
      | [] => acc
    else
      cliRepeats rest acc

/-- The `opt.repeats` value the sortbench CLI ends up with for a given
argument vector (`Options` default 5). -/
def cliParseRepeats (args : List String) : Int := cliRepeats args 5

/-- Number of timed passes per selected algorithm in shell mode: the CLI
parses the `buildArgs` vector, copies `opt.repeats` into `CoreConfig`, and
the core loops `max(1, cfg.repeats)` times. -/
def shellTimedPasses (req : RunRequest) : Int :=
  cppMax 1 (cliParseRepeats (buildArgs req))

/-- Number of timed passes per selected algorithm in cgo mode: the bridge
sets `CoreConfig.repeats = req.Repeats` and the core loops
`max(1, cfg.repeats)` times. -/
def cgoTimedPasses (req : RunRequest) : Int :=
  cppMax 1 req.repeats

/-! Rate limiter (per-client token bucket).  Tokens are float64 in the Go
source; they are modelled as rationals, with timestamps in seconds. -/

/-- Per-client bucket state: `tokens` and `lastRefill` (Go `bucket`). -/
structure Bucket where
  tokens : Rat
  lastRefill : Rat
deriving DecidableEq, Repr

/-- The refill-and-clamp step of `allow`: add `elapsed * rate/60` tokens and
clamp the result down to `capacity`. -/
def refillClamp (cap rate : Rat) (now : Rat) (b : Bucket) : Rat :=
  let t := b.tokens + (now - b.lastRefill) * (rate / 60)
  if cap < t then cap else t

/-- Translation of the Go `allow` function: refill, clamp, set `lastRefill`
to `now`, then admit (deducting one token) exactly when at least one token
is available. -/
def allow (cap rate : Rat) (now : Rat) (b : Bucket) : Bool × Bucket :=
  let t := refillClamp cap rate now b
  if 1 ≤ t then (true, ⟨t - 1, now⟩) else (false, ⟨t, now⟩)

/-- Result of the `withRateLimit` middleware for one request. -/
inductive RLResult
  | pass
  | refuse (status : Nat) (retryAfter : String)
deriving DecidableEq, Repr

/-- Translation of `withRateLimit`: refused requests get a 429 response with
header `Retry-After: 1`; admitted requests fall through to the handler. -/
def withRateLimit (cap rate : Rat) (now : Rat) (b : Bucket) : RLResult × Bucket :=
  let r := allow cap rate now b
  if r.1 then (RLResult.pass, r.2) else (RLResult.refuse 429 "1", r.2)

/-- Fold of `allow` over a sequence of request timestamps for one client,
counting admitted requests. -/
def runBucket (cap rate : Rat) (b : Bucket) : List Rat → Nat × Bucket
  | [] => (0, b)
  | t :: ts =>
    let step := allow cap rate t b
    let rest := runBucket cap rate step.2 ts
    ((if step.1 then 1 else 0) + rest.1, rest.2)

/-! Auth gate. -/

/-- Comma-separated key parsing in `loadAPIKeys`: performed only when the
environment value is non-empty; entries are trimmed and empties dropped. -/
def splitKeys (v : String) : List String :=
  if v ≠ "" then ((splitS ',' v).map trimS).filter (fun k => k ≠ "")
  else []

/-- Line-based key-file parsing in `loadAPIKeys`: trimmed lines, empties
dropped. -/
def splitKeyLines (b : String) : List String :=
  ((splitS (Char.ofNat 10) b).map trimS).filter (fun k => k ≠ "")

/-- Translation of `loadAPIKeys`: the key set is built from the
`BENCHSORT_API_KEYS` environment variable (comma-separated) and, when
`BENCHSORT_API_KEYS_FILE` names a readable file, its lines.  `getenv`
returns the empty string for unset variables (as `os.Getenv` does) and
`readFile` returns `none` on read error. -/
def loadAPIKeys (getenv : String → String) (readFile : String → Option String) :
    List String :=
  splitKeys (getenv "BENCHSORT_API_KEYS")
  ++ (if getenv "BENCHSORT_API_KEYS_FILE" ≠ "" then
        match readFile (getenv "BENCHSORT_API_KEYS_FILE") with
        | some b => splitKeyLines b
        | none => []
      else [])

/-- Key extraction in `requireAPIKey`: the trimmed `X-API-Key` header, or on
its absence the trimmed remainder of an `Authorization: Bearer ...` header,
or the empty string. -/
def presentedKey (xApiKey authorization : String) : String :=
  let key := trimS xApiKey
  if key = "" then
    let auth := trimS authorization
    if startsWithS auth "Bearer " then trimS (dropS auth 7) else ""
  else key

/-- Decision of the auth middleware. -/
inductive AuthResult
  | next
  | unauthorized (status : Nat) (body : String)
deriving DecidableEq, Repr

/-- Translation of `requireAPIKey`: admit exactly when the presented key is
a member of the loaded key set, otherwise a 401 with body
`error: unauthorized` and nothing else. -/
def requireAPIKey (keys : List String) (xApiKey authorization : String) :
    AuthResult :=
  if keys.contains (presentedKey xApiKey authorization) then AuthResult.next
  else AuthResult.unauthorized 401 "unauthorized"

/-! In-memory job lifecycle. -/

/-- Job status values of the Go `JobStatus` string enumeration. -/
inductive JobStatus
  | pending
  | running
  | done
  | failed
  | canceled
deriving DecidableEq, Repr

/-- How the job goroutine finishes: engine success writes `done`; an engine
error with the job context cancelled or expired writes `canceled`; any other
engine error writes `failed`. -/
inductive FinKind
  | success
  | ctxCanceled
  | errFailed
deriving DecidableEq, Repr

/-- Terminal status written by the goroutine for each finish kind. -/
def finStatus : FinKind → JobStatus
  | FinKind.success => JobStatus.done
  | FinKind.ctxCanceled => JobStatus.canceled
  | FinKind.errFailed => JobStatus.failed

/-- Events that touch a job's status field.  `start` and `fin` are the two
status assignments of the job goroutine; `cancelReq` is the cancel handler
(and `cancelAll`), which only fires the context cancel function and never
writes the status. -/
inductive JobEvent
  | start
  | fin (k : FinKind)
  | cancelReq
deriving DecidableEq, Repr

/-- Effect of one event on the status field, read off the Go statements:
the goroutine assigns `running` at its start and a terminal value at its
end; a cancel request leaves the status untouched. -/
def applyEvent : JobStatus → JobEvent → JobStatus
  | _, JobEvent.start => JobStatus.running
  | _, JobEvent.fin k => finStatus k
  | s, JobEvent.cancelReq => s

/-- Status after a sequence of events, starting from the `pending` the
submit handler stores. -/
def statusAfter (es : List JobEvent) : JobStatus :=
  es.foldl applyEvent JobStatus.pending

/-- Event sequences the in-memory implementation can generate for one job:
the single goroutine contributes `start` followed by exactly one `fin`, and
cancel requests may be interleaved anywhere (`a` before the start, `b`
while running, `c` after the finish).  Every reachable history of a job is
a prefix `(jobTrace a b c k).take t` of such a sequence. -/
def jobTrace (a b c : Nat) (k : FinKind) : List JobEvent :=
  List.replicate a JobEvent.cancelReq ++ [JobEvent.start]
    ++ List.replicate b JobEvent.cancelReq ++ [JobEvent.fin k]
    ++ List.replicate c JobEvent.cancelReq

/-- Position of a status in the lifecycle order
`pending < running < terminal`. -/
def rank : JobStatus → Nat
  | JobStatus.pending => 0
  | JobStatus.running => 1
  | JobStatus.done => 2
  | JobStatus.failed => 2
  | JobStatus.canceled => 2

/-- Terminal statuses. -/
def isTerminal (s : JobStatus) : Bool :=
  match s with
  | JobStatus.done => true
  | JobStatus.failed => true
  | JobStatus.canceled => true
  | _ => false

/-! Job records, the in-memory job map, and the handlers. -/

/-- Observable fields of an in-memory `Job` record (timestamps as abstract
integers), plus the one bit the cancel handler can touch: whether the
context cancel function has been invoked. -/
structure JobRec where
  status : JobStatus
  error : String
  result : Option String
  createdAt : Int
  startedAt : Int
  finishedAt : Int
  durationMs : Int
  tokenFired : Bool
deriving DecidableEq, Repr

/-- Projection to everything `GET /jobs/id` serialises (the cancel token is
not part of the JSON). -/
def observable (j : JobRec) :
    JobStatus × String × Option String × Int × Int × Int × Int :=
  (j.status, j.error, j.result, j.createdAt, j.startedAt, j.finishedAt,
   j.durationMs)

/-- The in-memory `JobManager` map, modelled as a lookup function (Go map
semantics: assignment overwrites). -/
def JobMap : Type := String → Option JobRec

/-- Translation of `genID`: the decimal rendering of the current wall-clock
`UnixNano` timestamp. -/
def genID (nowUnixNano : Int) : String := toString nowUnixNano

/-- Translation of `JobManager.create`: plain map assignment, overwriting
any record already stored under the same id. -/
def JobManager.create (m : JobMap) (id : String) (j : JobRec) : JobMap :=
  fun i => if i = id then some j else m i

/-- Result of `GET /jobs/id` against the in-memory store. -/
inductive GetResp
  | found (j : JobRec)
  | notFound (status : Nat)
deriving DecidableEq, Repr

/-- Translation of the in-memory branch of `getJobHandler`. -/
def getJobHandler (m : JobMap) (id : String) : GetResp :=
  match m id with
  | some j => GetResp.found j
  | none => GetResp.notFound 404

/-- Invoking a job's context cancel function: fires the token and touches
nothing else in the record. -/
def fireCancel (j : JobRec) : JobRec :=
  ⟨j.status, j.error, j.result, j.createdAt, j.startedAt, j.finishedAt,
   j.durationMs, true⟩

/-- Rows of the durable `jobs` table (fields the cancel handler can read or
write). -/
structure DbRow where
  status : String
  error : Option String
  result : Option String
  startedAt : Option Int
  finishedAt : Option Int
  durationMs : Option Int
deriving DecidableEq, Repr

/-- The durable jobs table, keyed by id. -/
def DbTable : Type := String → Option DbRow

/-- The SQL statement issued by the cancel handler in durable mode: an
UPDATE of status to canceled guarded by `AND status = pending`, so only a
still-pending row is touched. -/
def dbCancelUpdate (tbl : DbTable) (id : String) : DbTable :=
  fun i =>
    if i = id then
      match tbl i with
      | some r =>
          if r.status = "pending" then
            some ⟨"canceled", r.error, r.result, r.startedAt, r.finishedAt,
                  r.durationMs⟩
          else some r
      | none => none
    else tbl i

/-- Response of `POST /jobs/id/cancel`. -/
inductive CancelResp
  | ok (status : Nat) (body : String)
  | notFound (status : Nat)
  | badRequest (status : Nat)
deriving DecidableEq, Repr

/-- Translation of `cancelJobHandler` (fuller server variant): empty id is a
400; in durable mode the handler fires any process-local cancel function,
issues the guarded SQL update and returns 200 unconditionally; in in-memory
mode a found record has its cancel function fired and 200 is returned,
otherwise 404. -/
def cancelJobHandler (useDB : Bool) (tbl : DbTable) (m : JobMap) (id : String) :
    CancelResp × DbTable × JobMap :=
  if id = "" then (CancelResp.badRequest 400, tbl, m)
  else if useDB then
    (CancelResp.ok 200 "cancelled", dbCancelUpdate tbl id, m)
  else
    match m id with
    | some j =>
        (CancelResp.ok 200 "cancelled", tbl,
         fun i => if i = id then some (fireCancel j) else m i)
    | none => (CancelResp.notFound 404, tbl, m)

/-! Engine determinism: seed selection, the data-generation inputs, and row
selection in `run_for_type_core`. -/

/-- The fixed default seed constant of the engine
(`default_seed`, the golden-ratio constant). -/
def default_seed : Nat := 0x9E3779B97F4A7C15

/-- Seed actually used by `run_for_type_core`:
`cfg.seed.value_or(default_seed())`. -/
def effSeed (seed : Option Nat) : Nat := seed.getD default_seed

/-- Fields of `CoreConfig` consumed by the data/row pipeline of
`run_for_type_core` (timings excluded; they are wall-clock measurements). -/
structure CoreConfig where
  N : Nat
  dist : String
  repeats : Int
  warmup : Int
  seed : Option Nat
  algos : List String
  partialPct : Int
  dupValues : Int
  baseline : Option String
deriving DecidableEq, Repr

/-- Exactly the inputs of the engine's input-array generation: the rng seed
(`cfg.seed.value_or(default_seed())`) and the `make_data` arguments
`(cfg.N, cfg.dist, cfg.partial_shuffle_pct, cfg.dup_values)`. -/
structure GenCfg where
  seed : Nat
  N : Nat
  dist : String
  partialPct : Int
  dupValues : Int
deriving DecidableEq, Repr

/-- The generation inputs extracted from a core configuration, read off the
call `make_data<T>(cfg.N, cfg.dist, rng, cfg.partial_shuffle_pct,
cfg.dup_values)` with `rng` seeded from `effSeed`. -/
def genCfg (c : CoreConfig) : GenCfg :=
  ⟨effSeed c.seed, c.N, c.dist, c.partialPct, c.dupValues⟩

/-- The generated input array.  `gen` abstracts the pure computation
mt19937_64-plus-distribution-sampling of `make_data`; the engine feeds it
nothing beyond `genCfg`. -/
def originalData (gen : GenCfg → List Int) (c : CoreConfig) : List Int :=
  gen (genCfg c)

/-- Translation of `name_selected`: an empty selection (no names, no regex
filters) selects everything; otherwise the lowercased name must be listed or
some regex must match the name or its lowercasing.  Regexes are modelled as
match predicates. -/
def name_selected (selected : List String) (selectedRe : List (String → Bool))
    (name : String) : Bool :=
  if selected.isEmpty ∧ selectedRe.isEmpty then true
  else
    let ln := name.toLower
    selected.contains ln
    || selectedRe.any (fun re => re name || re ln)

/-- Sequence of algorithms that produce result rows, in registry order:
`run_for_type_core` iterates the registry and keeps exactly the entries
passing `name_selected(cfg.algos, cfg.algo_regex, name)`. -/
def rowAlgos (registry : List String) (algoRegex : List (String → Bool))
    (c : CoreConfig) : List String :=
  registry.filter (fun nm => name_selected c.algos algoRegex nm)

/-! Plugin loader (`load_plugins_t`). -/

/-- Element types of the engine. -/
inductive ElemT
  | i32
  | u32
  | i64
  | u64
  | f32
  | f64
  | str
deriving DecidableEq, Repr

/-- One entry of the v2 plugin ABI: a (possibly null) name and one possibly
null function pointer per numeric element type (the booleans record pointer
presence). -/
structure AlgoV2 where
  name : Option String
  run_i32 : Bool
  run_u32 : Bool
  run_i64 : Bool
  run_u64 : Bool
  run_f32 : Bool
  run_f64 : Bool
deriving DecidableEq, Repr

/-- One entry of the v1 plugin ABI (int-only). -/
structure AlgoV1 where
  name : Option String
  run_int : Bool
deriving DecidableEq, Repr

/-- The function pointer of a v2 entry for the requested element type.  The
`if constexpr` chain of the loader has no branch for `str`, so no v2 entry
is ever usable there. -/
def v2ptr (t : ElemT) (a : AlgoV2) : Bool :=
  match t with
  | ElemT.i32 => a.run_i32
  | ElemT.u32 => a.run_u32
  | ElemT.i64 => a.run_i64
  | ElemT.u64 => a.run_u64
  | ElemT.f32 => a.run_f32
  | ElemT.f64 => a.run_f64
  | ElemT.str => false

/-- What discovery does with a library handle. -/
inductive LibFate
  | openFailed
  | kept
  | closed
deriving DecidableEq, Repr

/-- Observable behaviour of one plugin library towards the loader: whether
`dlopen` succeeds, which of the two entry-point symbols resolve, and what
each call returns (`v2ok`/`v1ok` model `fn(&arr,&count)` returning ok with a
non-null array; the list length models `count`). -/
structure PluginLib where
  opens : Bool
  hasV2 : Bool
  v2ok : Bool
  v2arr : List AlgoV2
  hasV1 : Bool
  v1ok : Bool
  v1arr : List AlgoV1
deriving Repr

/-- Names a v2 array contributes to the registry for element type `t`: the
loop skips entries whose name is null or whose pointer for `t` is null, and
pushes the rest in order (`any_added` is their non-emptiness). -/
def v2added (t : ElemT) (arr : List AlgoV2) : List String :=
  arr.filterMap (fun a =>
    match a.name with
    | none => none
    | some nm => if v2ptr t a then some nm else none)

/-- Names a v1 array contributes: the v1 loop only runs for element type
i32, skipping entries with a null name or null run_int pointer. -/
def v1added (t : ElemT) (arr : List AlgoV1) : List String :=
  if t = ElemT.i32 then
    arr.filterMap (fun a =>
      match a.name with
      | none => none
      | some nm => if a.run_int then some nm else none)
  else []

/-- Translation of the per-library body of `load_plugins_t`: failed `dlopen`
skips the library; a resolvable v2 symbol is always taken (v1 is never
consulted then), its entries filtered to those with a name and a function
pointer for the element type; otherwise v1 contributes entries for `i32`
only; a library whose usable contribution is empty is `dlclose`d, and one
that contributed at least one algorithm is kept open. -/
def loadOne (t : ElemT) (lib : PluginLib) : List String × LibFate :=
  if lib.opens = false then ([], LibFate.openFailed)
  else if lib.hasV2 then
    if lib.v2ok = false ∨ lib.v2arr.length ≤ 0 then ([], LibFate.closed)
    else if v2added t lib.v2arr ≠ [] then (v2added t lib.v2arr, LibFate.kept)
    else ([], LibFate.closed)
  else if lib.hasV1 then
    if lib.v1ok = false ∨ lib.v1arr.length ≤ 0 then ([], LibFate.closed)
    else if v1added t lib.v1arr ≠ [] then (v1added t lib.v1arr, LibFate.kept)
    else ([], LibFate.closed)
  else ([], LibFate.closed)

/-- Translation of `load_plugins_t` over the whole path list: registry
additions in order, and the fate of each library. -/
def load_plugins_t (t : ElemT) (libs : List PluginLib) :
    List String × List LibFate :=
  (libs.flatMap (fun l => (loadOne t l).1), libs.map (fun l => (loadOne t l).2))

/-! Concrete sample inputs used by counterexamples and witnesses. -/

/-- A well-formed request in the shape of the README sync example. -/
def baseReq : RunRequest :=
  ⟨256, "runs", "i32", 1, 0, none, ["std_sort"], 0, false, none, [], 0, 0, 0,
   0, 0, 0⟩

/-- The base request with a request timeout of 240000 ms, twice the server
default of 120000 ms. -/
def bigTimeoutReq : RunRequest :=
  ⟨256, "runs", "i32", 1, 0, none, ["std_sort"], 0, false, none, [], 240000,
   0, 0, 0, 0, 0⟩

/-- A request carrying negative values in warmup, threads, timeout_ms,
partial_shuffle_pct, dup_values and stagger_block. -/
def negFieldsReq : RunRequest :=
  ⟨256, "runs", "i32", 0, -5, none, ["std_sort"], -2, false, none, [], -7,
   -1, -3, 0, 0, -4⟩

/-- The base request with repeats = 0. -/
def zeroRepeatsReq : RunRequest :=
  ⟨256, "runs", "i32", 0, 0, none, ["std_sort"], 0, false, none, [], 0, 0, 0,
   0, 0, 0⟩

/-- An environment that sets the variable named in the claim (API_KEYS) but
not the variable the code actually reads. -/
def claimEnv : String → String := fun n => if n = "API_KEYS" then "k1" else ""

/-- A file system with no readable files. -/
def noFile : String → Option String := fun _ => none

/-- An empty durable jobs table. -/
def emptyDb : DbTable := fun _ => none

/-- An empty in-memory job map. -/
def emptyJobs : JobMap := fun _ => none

/-- A terminal (done) in-memory job record. -/
def doneRec : JobRec := ⟨JobStatus.done, "", some "[]", 0, 1, 2, 2, false⟩

/-- A pending in-memory job record. -/
def pendingRec : JobRec := ⟨JobStatus.pending, "", none, 0, 0, 0, 0, false⟩

/-- A terminal (done) durable job row. -/
def doneRow : DbRow := ⟨"done", none, some "[]", some 1, some 2, some 2⟩

/-- An in-memory store holding one terminal job under id 42. -/
def oneJobMap : JobMap := fun i => if i = "42" then some doneRec else none

/-- A durable table holding one terminal row under id 42. -/
def oneRowDb : DbTable := fun i => if i = "42" then some doneRow else none

/-- A core configuration without an explicit seed. -/
def sampleCore : CoreConfig :=
  ⟨256, "runs", 1, 0, none, ["std_sort"], 0, 0, none⟩

/-! ### Theorems -/

/-- C2 counterexample: on a valid request asking for timeout_ms = 240000,
the sync handler runs the engine under a 240000 ms deadline, which is
strictly longer than the 120000 ms server default and differs from the
min of the two values the claim prescribes. -/
theorem run_timeout_exceeds_default_counterexample :
    runHandler defaultServerConfig bigTimeoutReq = RunDispatch.run 240000
    ∧ defaultServerConfig.defaultTimeoutMs < 240000
    ∧ (240000 : Int) ≠ min 240000 defaultServerConfig.defaultTimeoutMs := by
  refine ⟨rfl, by decide, by decide⟩

/-- C2 (amended): for every validated request the sync handler executes the
engine under a deadline equal to the request timeout_ms when that value is
positive and to the server default otherwise; a request-supplied timeout_ms
larger than the server default therefore extends the deadline beyond the
default rather than being clamped to it. -/
theorem run_deadline_override_amended (cfg : ServerConfig) (req : RunRequest)
    (h : validate cfg req = Except.ok ()) :
    runHandler cfg req = RunDispatch.run (runDeadlineMs cfg req)
    ∧ (0 < req.timeoutMs → runDeadlineMs cfg req = req.timeoutMs)
    ∧ (req.timeoutMs ≤ 0 → runDeadlineMs cfg req = cfg.defaultTimeoutMs) := by
  refine ⟨?_, ?_, ?_⟩
  · unfold runHandler
    rw [h]
  · intro ht
    unfold runDeadlineMs
    rw [if_pos ht]
  · intro ht
    unfold runDeadlineMs
    rw [if_neg (by omega)]

/-- Witness for the amended C2 theorem at the concrete oversized-timeout
request. -/
theorem run_deadline_override_witness :
    validate defaultServerConfig bigTimeoutReq = Except.ok ()
    ∧ (runHandler defaultServerConfig bigTimeoutReq
        = RunDispatch.run (runDeadlineMs defaultServerConfig bigTimeoutReq)
      ∧ (0 < bigTimeoutReq.timeoutMs →
          runDeadlineMs defaultServerConfig bigTimeoutReq
            = bigTimeoutReq.timeoutMs)
      ∧ (bigTimeoutReq.timeoutMs ≤ 0 →
          runDeadlineMs defaultServerConfig bigTimeoutReq
            = defaultServerConfig.defaultTimeoutMs)) :=
  ⟨rfl, run_deadline_override_amended defaultServerConfig bigTimeoutReq rfl⟩

/-- C3 counterexample: validate accepts a request whose warmup, threads,
timeout_ms, partial_shuffle_pct, dup_values and stagger_block are all
negative, so validation does not reject every negative integer field. -/
theorem validate_accepts_negative_counterexample :
    validate defaultServerConfig negFieldsReq = Except.ok ()
    ∧ negFieldsReq.warmup < 0
    ∧ negFieldsReq.threads < 0
    ∧ negFieldsReq.timeoutMs < 0
    ∧ negFieldsReq.partialPct < 0
    ∧ negFieldsReq.dupValues < 0
    ∧ negFieldsReq.staggerBlock < 0 := by
  refine ⟨rfl, by decide, by decide, by decide, by decide, by decide, by decide⟩

/-- C3 (amended): validation bounds only N (to [1, maxN]) and repeats (to
[0, maxRepeats]); negative values in the remaining numeric fields are not
rejected. -/
theorem validate_bounds_amended (cfg : ServerConfig) (req : RunRequest)
    (h : validate cfg req = Except.ok ()) :
    1 ≤ req.N ∧ req.N ≤ cfg.maxN
    ∧ 0 ≤ req.repeats ∧ req.repeats ≤ cfg.maxRepeats := by
  unfold validate at h
  split_ifs at h with h1 h2 h3 h4 h5
  push_neg at h1 h2
  exact ⟨by omega, by omega, by omega, by omega⟩

/-- Witness for the amended C3 theorem at the negative-fields request. -/
theorem validate_bounds_witness :
    validate defaultServerConfig negFieldsReq = Except.ok ()
    ∧ (1 ≤ negFieldsReq.N ∧ negFieldsReq.N ≤ defaultServerConfig.maxN
      ∧ 0 ≤ negFieldsReq.repeats
      ∧ negFieldsReq.repeats ≤ defaultServerConfig.maxRepeats) :=
  ⟨rfl, validate_bounds_amended defaultServerConfig negFieldsReq rfl⟩

/-- C4 counterexample: the valid request with repeats = 0 leads, in shell
mode, to an argument vector without the repeat flag, so the CLI falls back
to its Options default of 5 and the engine performs 5 timed passes, not
exactly one. -/
theorem repeats_zero_shell_five_passes_counterexample :
    validate defaultServerConfig zeroRepeatsReq = Except.ok ()
    ∧ zeroRepeatsReq.repeats = 0
    ∧ ¬ ("--repeat" ∈ buildArgs zeroRepeatsReq)
    ∧ shellTimedPasses zeroRepeatsReq = 5
    ∧ shellTimedPasses zeroRepeatsReq ≠ 1 := by
  refine ⟨rfl, rfl, by decide, by decide, by decide⟩

/-- C4 (amended): a request with repeats = 0 is accepted by validation; in
the in-process (cgo) engine mode the bridge forwards repeats = 0 and the
core runs max(1, repeats) = 1 timed pass; in the child-process (shell) mode
buildArgs omits the repeat flag for repeats = 0 and the CLI default of 5
repeats governs, so 5 timed passes run. -/
theorem repeats_zero_passes_amended (cfg : ServerConfig) (req : RunRequest)
    (_hok : validate cfg req = Except.ok ()) (h0 : req.repeats = 0) :
    cgoTimedPasses req = 1
    ∧ (if 0 < req.repeats then ["--repeat", toString req.repeats]
        else ([] : List String)) = []
    ∧ shellTimedPasses zeroRepeatsReq = 5 := by
  refine ⟨?_, ?_, by decide⟩
  · unfold cgoTimedPasses cppMax
    rw [h0]
    decide
  · rw [if_neg (by omega)]

/-- Witness for the amended C4 theorem at the repeats = 0 request. -/
theorem repeats_zero_passes_witness :
    validate defaultServerConfig zeroRepeatsReq = Except.ok ()
    ∧ zeroRepeatsReq.repeats = 0
    ∧ (cgoTimedPasses zeroRepeatsReq = 1
      ∧ (if 0 < zeroRepeatsReq.repeats
          then ["--repeat", toString zeroRepeatsReq.repeats]
          else ([] : List String)) = []
      ∧ shellTimedPasses zeroRepeatsReq = 5) :=
  ⟨rfl, rfl, repeats_zero_passes_amended defaultServerConfig zeroRepeatsReq rfl rfl⟩

/-- C6 counterexample: with a key k1 configured under the environment
variable named by the claim (API_KEYS) and nothing under the variable the
code reads (BENCHSORT_API_KEYS), the loaded key set is empty and a request
presenting k1 via X-API-Key is rejected with 401, refuting the claimed
admit condition. -/
theorem api_keys_env_name_counterexample :
    splitKeys (claimEnv "API_KEYS") = ["k1"]
    ∧ loadAPIKeys claimEnv noFile = []
    ∧ requireAPIKey (loadAPIKeys claimEnv noFile) "k1" ""
        = AuthResult.unauthorized 401 "unauthorized" := by
  refine ⟨by decide, by decide, by decide⟩

/-- C6 (amended): the auth gate admits a request exactly when the presented
key (X-API-Key, else Authorization Bearer) is a member of the key set
loaded at startup from the BENCHSORT_API_KEYS environment variable
(comma-separated) or the BENCHSORT_API_KEYS_FILE file (one key per line);
otherwise it responds 401 with body error unauthorized; and membership in
the loaded set is exactly membership in one of those two parsed sources. -/
theorem auth_gate_amended (getenv : String → String)
    (readFile : String → Option String) (xApiKey authorization k : String) :
    (requireAPIKey (loadAPIKeys getenv readFile) xApiKey authorization
        = AuthResult.next
      ↔ (loadAPIKeys getenv readFile).contains
          (presentedKey xApiKey authorization) = true)
    ∧ ((loadAPIKeys getenv readFile).contains
          (presentedKey xApiKey authorization) = false →
        requireAPIKey (loadAPIKeys getenv readFile) xApiKey authorization
          = AuthResult.unauthorized 401 "unauthorized")
    ∧ (k ∈ loadAPIKeys getenv readFile
      ↔ (k ∈ splitKeys (getenv "BENCHSORT_API_KEYS")
        ∨ (getenv "BENCHSORT_API_KEYS_FILE" ≠ ""
          ∧ ∃ bdy, readFile (getenv "BENCHSORT_API_KEYS_FILE") = some bdy
            ∧ k ∈ splitKeyLines bdy))) := by
  refine ⟨?_, ?_, ?_⟩
  · unfold requireAPIKey
    split_ifs with hc
    · exact iff_of_true rfl hc
    · exact iff_of_false (by simp) (by simpa using hc)
  · intro hc
    unfold requireAPIKey
    rw [hc]
    simp
  · unfold loadAPIKeys
    rw [List.mem_append]
    constructor
    · rintro (hl | hr)
      · exact Or.inl hl
      · right
        split_ifs at hr with hfp
        · cases hread : readFile (getenv "BENCHSORT_API_KEYS_FILE") with
          | some bdy =>
              rw [hread] at hr
              exact ⟨hfp, bdy, rfl, hr⟩
          | none =>
              rw [hread] at hr
              cases hr
        · cases hr
    · rintro (hl | ⟨hfp, bdy, hread, hmem⟩)
      · exact Or.inl hl
      · right
        rw [if_pos hfp, hread]
        exact hmem

/-- Witness for the amended C6 theorem at a concrete environment carrying
one key under BENCHSORT_API_KEYS. -/
theorem auth_gate_witness :
    (requireAPIKey
        (loadAPIKeys (fun n => if n = "BENCHSORT_API_KEYS" then "k1" else "")
          noFile) "k1" "" = AuthResult.next
      ↔ (loadAPIKeys (fun n => if n = "BENCHSORT_API_KEYS" then "k1" else "")
          noFile).contains (presentedKey "k1" "") = true) :=
  (auth_gate_amended (fun n => if n = "BENCHSORT_API_KEYS" then "k1" else "")
    noFile "k1" "" "k1").1

/-- C7 counterexample: in durable mode the cancel endpoint answers 200 with
status cancelled even for an id that has no job record at all, so an
unknown id is not answered with 404 there. -/
theorem cancel_unknown_id_db_counterexample :
    (cancelJobHandler true emptyDb emptyJobs "deadbeef").1
      = CancelResp.ok 200 "cancelled"
    ∧ (cancelJobHandler true emptyDb emptyJobs "deadbeef").1
      ≠ CancelResp.notFound 404 := by
  refine ⟨rfl, by decide⟩

/-- C7 (amended): cancelling a terminal job is a no-op returning 200 — the
record's status, result, error and timestamps are unchanged — in both store
variants; an id with no record is answered 404 by the in-memory store,
while the durable branch returns 200 regardless of whether the id exists. -/
theorem cancel_terminal_noop_amended (tbl : DbTable) (m : JobMap) (id : String)
    (j : JobRec) (r : DbRow) (hid : id ≠ "") :
    (m id = some j →
      (cancelJobHandler false tbl m id).1 = CancelResp.ok 200 "cancelled"
      ∧ ((cancelJobHandler false tbl m id).2.2 id).map observable
          = some (observable j)
      ∧ (∀ i2, i2 ≠ id → (cancelJobHandler false tbl m id).2.2 i2 = m i2))
    ∧ (m id = none →
      (cancelJobHandler false tbl m id).1 = CancelResp.notFound 404)
    ∧ (tbl id = some r → r.status ≠ "pending" →
      (cancelJobHandler true tbl m id).1 = CancelResp.ok 200 "cancelled"
      ∧ (cancelJobHandler true tbl m id).2.1 id = some r) := by
  refine ⟨?_, ?_, ?_⟩
  · intro hm
    unfold cancelJobHandler
    rw [if_neg hid, if_neg (by decide)]
    rw [hm]
    refine ⟨rfl, ?_, ?_⟩
    · simp [observable, fireCancel]
    · intro i2 hne
      simp [if_neg hne]
  · intro hm
    unfold cancelJobHandler
    rw [if_neg hid, if_neg (by decide)]
    rw [hm]
  · intro hr hst
    unfold cancelJobHandler
    rw [if_neg hid, if_pos rfl]
    refine ⟨rfl, ?_⟩
    show dbCancelUpdate tbl id id = some r
    simp [dbCancelUpdate, hr, hst]

/-- Witness for the amended C7 theorem at a store holding one terminal job
under id 42. -/
theorem cancel_terminal_noop_witness :
    ("42" : String) ≠ ""
    ∧ ((oneJobMap "42" = some doneRec →
        (cancelJobHandler false oneRowDb oneJobMap "42").1
          = CancelResp.ok 200 "cancelled"
        ∧ ((cancelJobHandler false oneRowDb oneJobMap "42").2.2 "42").map
            observable = some (observable doneRec)
        ∧ (∀ i2, i2 ≠ "42" →
            (cancelJobHandler false oneRowDb oneJobMap "42").2.2 i2
              = oneJobMap i2))
      ∧ (oneJobMap "42" = none →
          (cancelJobHandler false oneRowDb oneJobMap "42").1
            = CancelResp.notFound 404)
      ∧ (oneRowDb "42" = some doneRow → doneRow.status ≠ "pending" →
          (cancelJobHandler true oneRowDb oneJobMap "42").1
            = CancelResp.ok 200 "cancelled"
          ∧ (cancelJobHandler true oneRowDb oneJobMap "42").2.1 "42"
            = some doneRow)) :=
  ⟨by decide,
   cancel_terminal_noop_amended oneRowDb oneJobMap "42" doneRec doneRow
     (by decide)⟩

/-- C8: the engine's input array is a function of the effective seed and the
request fields fed to make_data alone; a missing seed falls back to the
fixed constant 0x9E3779B97F4A7C15; and the sequence of result-row
algorithms is a function of the registry and the request's algorithm
selection, in registry order. -/
theorem engine_deterministic_seed :
    (∀ (gen : GenCfg → List Int) (c1 c2 : CoreConfig), genCfg c1 = genCfg c2 →
      originalData gen c1 = originalData gen c2)
    ∧ (∀ c : CoreConfig, c.seed = none →
        (genCfg c).seed = 0x9E3779B97F4A7C15)
    ∧ (∀ (c : CoreConfig) (s : Nat), c.seed = some s → (genCfg c).seed = s)
    ∧ (∀ (registry : List String) (algoRegex : List (String → Bool))
        (c1 c2 : CoreConfig), c1.algos = c2.algos →
        rowAlgos registry algoRegex c1 = rowAlgos registry algoRegex c2) := by
  refine ⟨?_, ?_, ?_, ?_⟩
  · intro gen c1 c2 h
    unfold originalData
    rw [h]
  · intro c h
    simp [genCfg, effSeed, h, default_seed]
  · intro c s h
    simp [genCfg, effSeed, h]
  · intro registry algoRegex c1 c2 h
    unfold rowAlgos
    rw [h]

/-- Witness for the C8 theorem: the sample config without a seed uses the
default constant. -/
theorem engine_deterministic_seed_witness :
    sampleCore.seed = none ∧ (genCfg sampleCore).seed = 0x9E3779B97F4A7C15 :=
  ⟨rfl, engine_deterministic_seed.2.1 sampleCore rfl⟩

/-- C9: the plugin loader prefers the v2 entry point (its result does not
depend on the v1 fields when v2 resolves), contributes algorithms from a
v1-only library for no element type other than i32, and — for every library
whose dlopen succeeded — closes the library exactly when it contributed no
algorithm and keeps it open exactly when it contributed at least one. -/
theorem plugin_loader_contract :
    (∀ (t : ElemT) (lib lib2 : PluginLib), lib.opens = lib2.opens →
      lib.hasV2 = true → lib2.hasV2 = true → lib.v2ok = lib2.v2ok →
      lib.v2arr = lib2.v2arr → loadOne t lib = loadOne t lib2)
    ∧ (∀ (t : ElemT) (lib : PluginLib), lib.hasV2 = false → t ≠ ElemT.i32 →
        (loadOne t lib).1 = [])
    ∧ (∀ (t : ElemT) (lib : PluginLib), lib.opens = true →
        ((loadOne t lib).2 = LibFate.closed ↔ (loadOne t lib).1 = [])
        ∧ ((loadOne t lib).2 = LibFate.kept ↔ (loadOne t lib).1 ≠ [])) := by
  have hcases : ∀ (t : ElemT) (lib : PluginLib), lib.opens = true →
      ((loadOne t lib).1 = [] ∧ (loadOne t lib).2 = LibFate.closed)
      ∨ ((loadOne t lib).1 ≠ [] ∧ (loadOne t lib).2 = LibFate.kept) := by
    intro t lib hopen
    unfold loadOne
    rw [hopen, if_neg (by decide)]
    by_cases h2 : lib.hasV2 = true
    · rw [if_pos h2]
      by_cases hk : lib.v2ok = false ∨ lib.v2arr.length ≤ 0
      · rw [if_pos hk]
        exact Or.inl ⟨rfl, rfl⟩
      · rw [if_neg hk]
        by_cases ha : v2added t lib.v2arr ≠ []
        · rw [if_pos ha]
          exact Or.inr ⟨ha, rfl⟩
        · rw [if_neg ha]
          exact Or.inl ⟨rfl, rfl⟩
    · rw [if_neg h2]
      by_cases h1 : lib.hasV1 = true
      · rw [if_pos h1]
        by_cases hk : lib.v1ok = false ∨ lib.v1arr.length ≤ 0
        · rw [if_pos hk]
          exact Or.inl ⟨rfl, rfl⟩
        · rw [if_neg hk]
          by_cases ha : v1added t lib.v1arr ≠ []
          · rw [if_pos ha]
            exact Or.inr ⟨ha, rfl⟩
          · rw [if_neg ha]
            exact Or.inl ⟨rfl, rfl⟩
      · rw [if_neg h1]
        exact Or.inl ⟨rfl, rfl⟩
  refine ⟨?_, ?_, ?_⟩
  · intro t lib lib2 ho h2 h2b hok harr
    unfold loadOne
    rw [ho, h2, h2b, hok, harr]
    simp
  · intro t lib h2 ht
    unfold loadOne
    rw [h2]
    have hv1 : v1added t lib.v1arr = [] := by simp [v1added, ht]
    rw [hv1]
    split_ifs <;> simp_all
  · intro t lib hopen
    rcases hcases t lib hopen with ⟨he, hf⟩ | ⟨he, hf⟩
    · rw [he, hf]
      exact ⟨iff_of_true rfl rfl, iff_of_false (by decide) (by simp)⟩
    · rw [hf]
      exact ⟨iff_of_false (by decide) (by simpa using he),
             iff_of_true rfl he⟩

/-- Witness for the C9 theorem at a concrete v1-only library and element
type u32: it contributes no algorithm there. -/
theorem plugin_loader_contract_witness :
    (PluginLib.mk true false true [] true true
        [AlgoV1.mk (some "plug_sort") true]).hasV2 = false
    ∧ ElemT.u32 ≠ ElemT.i32
    ∧ (loadOne ElemT.u32
        (PluginLib.mk true false true [] true true
          [AlgoV1.mk (some "plug_sort") true])).1 = [] :=
  ⟨rfl, by decide,
   plugin_loader_contract.2.1 ElemT.u32
     (PluginLib.mk true false true [] true true
       [AlgoV1.mk (some "plug_sort") true]) rfl (by decide)⟩

/-- C10: genID is a pure function of the wall-clock nanosecond timestamp, so
two submissions observing the same timestamp receive the same id, and
JobManager.create overwrites: after two creates under one id, GET observes
only the second record and the first has become unreachable under that
id. -/
theorem job_id_overwrite (t1 t2 : Int) (m : JobMap) (id : String)
    (j1 j2 : JobRec) (hts : t1 = t2) (hne : j1 ≠ j2) :
    genID t1 = genID t2
    ∧ getJobHandler (JobManager.create (JobManager.create m id j1) id j2) id
        = GetResp.found j2
    ∧ getJobHandler (JobManager.create (JobManager.create m id j1) id j2) id
        ≠ GetResp.found j1 := by
  subst hts
  refine ⟨rfl, ?_, ?_⟩
  · unfold getJobHandler JobManager.create
    rw [if_pos rfl]
  · unfold getJobHandler JobManager.create
    rw [if_pos rfl]
    intro hcontra
    exact hne (GetResp.found.inj hcontra).symm

/-- Witness for the C10 theorem at one concrete timestamp and two distinct
records. -/
theorem job_id_overwrite_witness :
    (1700000000000000000 : Int) = 1700000000000000000
    ∧ pendingRec ≠ doneRec
    ∧ (genID 1700000000000000000 = genID 1700000000000000000
      ∧ getJobHandler
          (JobManager.create (JobManager.create emptyJobs "17" pendingRec)
            "17" doneRec) "17" = GetResp.found doneRec
      ∧ getJobHandler
          (JobManager.create (JobManager.create emptyJobs "17" pendingRec)
            "17" doneRec) "17" ≠ GetResp.found pendingRec) :=
  ⟨rfl, by decide,
   job_id_overwrite 1700000000000000000 1700000000000000000 emptyJobs "17"
     pendingRec doneRec rfl (by decide)⟩

/-- Cancel requests never change the status field, so folding any run of
them leaves the status unchanged. -/
theorem foldl_cancelReq (n : Nat) (s : JobStatus) :
    (List.replicate n JobEvent.cancelReq).foldl applyEvent s = s := by
  induction n with
  | zero => rfl
  | succ m ih =>
    rw [List.replicate_succ, List.foldl_cons]
    exact ih

/-- Status of a job after the first t events of its history: pending until
the goroutine's start assignment, running until its finish assignment, and
the finish status afterwards, regardless of how many cancel requests are
interleaved. -/
theorem statusAfter_jobTrace_take (a b c : Nat) (k : FinKind) (t : Nat) :
    statusAfter ((jobTrace a b c k).take t) =
      if t ≤ a then JobStatus.pending
      else if t ≤ a + 1 + b then JobStatus.running
      else finStatus k := by
  unfold statusAfter jobTrace
  simp only [List.append_assoc]
  rw [List.take_append_eq_append_take, List.foldl_append, List.take_replicate,
    List.length_replicate, foldl_cancelReq]
  by_cases h1 : t ≤ a
  · rw [if_pos h1, show t - a = 0 from by omega]
    rfl
  · rw [if_neg h1, show t - a = (t - a - 1) + 1 from by omega,
      List.singleton_append, List.take_succ_cons, List.foldl_cons]
    rw [List.take_append_eq_append_take, List.foldl_append,
      List.take_replicate, List.length_replicate, foldl_cancelReq]
    by_cases h2 : t ≤ a + 1 + b
    · rw [if_pos h2, show t - a - 1 - b = 0 from by omega]
      rfl
    · rw [if_neg h2, show t - a - 1 - b = (t - a - 1 - b - 1) + 1 from by omega,
        List.singleton_append, List.take_succ_cons, List.foldl_cons,
        List.take_replicate, foldl_cancelReq]
      rfl

/-- C1: along every history the in-memory implementation can generate for a
job (cancel requests anywhere, one start, one finish), the observed status
sequence is monotone in the order pending < running < terminal, a terminal
status never changes again, and the status enters running at exactly one
position (the start event), hence at most once. -/
theorem job_status_monotonic_in_memory (a b c : Nat) (k : FinKind)
    (t t2 : Nat) (h : t ≤ t2) :
    rank (statusAfter ((jobTrace a b c k).take t))
      ≤ rank (statusAfter ((jobTrace a b c k).take t2))
    ∧ (isTerminal (statusAfter ((jobTrace a b c k).take t)) = true →
        statusAfter ((jobTrace a b c k).take t2)
          = statusAfter ((jobTrace a b c k).take t))
    ∧ (∀ u v : Nat,
        statusAfter ((jobTrace a b c k).take u) ≠ JobStatus.running →
        statusAfter ((jobTrace a b c k).take (u + 1)) = JobStatus.running →
        statusAfter ((jobTrace a b c k).take v) ≠ JobStatus.running →
        statusAfter ((jobTrace a b c k).take (v + 1)) = JobStatus.running →
        u = v) := by
  have hchar := statusAfter_jobTrace_take a b c k
  have hfr : finStatus k ≠ JobStatus.running := by
    cases k <;> simp [finStatus]
  have hft : isTerminal (finStatus k) = true := by
    cases k <;> simp [finStatus, isTerminal]
  have hrank : rank (finStatus k) = 2 := by
    cases k <;> simp [finStatus, rank]
  have henter : ∀ u : Nat,
      statusAfter ((jobTrace a b c k).take u) ≠ JobStatus.running →
      statusAfter ((jobTrace a b c k).take (u + 1)) = JobStatus.running →
      u = a := by
    intro u hu1 hu2
    rw [hchar u] at hu1
    rw [hchar (u + 1)] at hu2
    by_cases c1 : u + 1 ≤ a
    · rw [if_pos c1] at hu2
      exact absurd hu2 (by simp)
    · by_cases c2 : u + 1 ≤ a + 1 + b
      · by_cases c3 : u ≤ a
        · omega
        · by_cases c4 : u ≤ a + 1 + b
          · rw [if_neg c3, if_pos c4] at hu1
            exact absurd rfl hu1
          · omega
      · rw [if_neg c1, if_neg c2] at hu2
        exact absurd hu2 hfr
  refine ⟨?_, ?_, ?_⟩
  · rw [hchar t, hchar t2]
    by_cases p1 : t ≤ a
    · rw [if_pos p1]
      by_cases p2 : t2 ≤ a
      · rw [if_pos p2]
      · rw [if_neg p2]
        by_cases p3 : t2 ≤ a + 1 + b
        · rw [if_pos p3]
          simp [rank]
        · rw [if_neg p3, hrank]
          decide
    · rw [if_neg p1, if_neg (show ¬ t2 ≤ a from by omega)]
      by_cases p3 : t ≤ a + 1 + b
      · rw [if_pos p3]
        by_cases p4 : t2 ≤ a + 1 + b
        · rw [if_pos p4]
        · rw [if_neg p4, hrank]
          decide
      · rw [if_neg p3, if_neg (show ¬ t2 ≤ a + 1 + b from by omega)]
  · intro hterm
    rw [hchar t] at hterm ⊢
    rw [hchar t2]
    by_cases p1 : t ≤ a
    · rw [if_pos p1] at hterm
      exact absurd hterm (by simp [isTerminal])
    · rw [if_neg p1] at hterm ⊢
      by_cases p3 : t ≤ a + 1 + b
      · rw [if_pos p3] at hterm
        exact absurd hterm (by simp [isTerminal])
      · rw [if_neg p3] at hterm ⊢
        rw [if_neg (show ¬ t2 ≤ a from by omega),
          if_neg (show ¬ t2 ≤ a + 1 + b from by omega)]
  · intro u v hu1 hu2 hv1 hv2
    rw [henter u hu1 hu2, henter v hv1 hv2]

/-- Witness for the C1 theorem on a concrete trace with one cancel request
in every phase. -/
theorem job_status_monotonic_witness :
    (1 : Nat) ≤ 6
    ∧ rank (statusAfter ((jobTrace 1 2 1 FinKind.success).take 1))
        ≤ rank (statusAfter ((jobTrace 1 2 1 FinKind.success).take 6)) :=
  ⟨by decide,
   (job_status_monotonic_in_memory 1 2 1 FinKind.success 1 6 (by decide)).1⟩

/-- Potential bound for a run of the token bucket: the number of admitted
requests plus the remaining tokens never exceeds the starting tokens plus
the total refill over the elapsed time; tokens stay non-negative; and the
final lastRefill stamp is either untouched or one of the request times. -/
theorem runBucket_potential (cap rate : Rat) (hcap : 0 ≤ cap)
    (hrate : 0 ≤ rate) :
    ∀ (ts : List Rat) (b : Bucket), 0 ≤ b.tokens →
      List.Chain (· ≤ ·) b.lastRefill ts →
      (((runBucket cap rate b ts).1 : Rat) + (runBucket cap rate b ts).2.tokens
          ≤ b.tokens
            + ((runBucket cap rate b ts).2.lastRefill - b.lastRefill)
              * (rate / 60))
      ∧ 0 ≤ (runBucket cap rate b ts).2.tokens
      ∧ ((runBucket cap rate b ts).2.lastRefill = b.lastRefill
          ∨ (runBucket cap rate b ts).2.lastRefill ∈ ts) := by
  intro ts
  induction ts with
  | nil =>
    intro b h0 _
    refine ⟨?_, h0, Or.inl rfl⟩
    simp [runBucket]
  | cons t ts ih =>
    intro b h0 hch
    rw [List.chain_cons] at hch
    obtain ⟨hbt, hchain⟩ := hch
    have hrho : 0 ≤ rate / 60 := by
      apply div_nonneg hrate
      norm_num
    have hpre : 0 ≤ b.tokens + (t - b.lastRefill) * (rate / 60) := by
      have hm : 0 ≤ (t - b.lastRefill) * (rate / 60) :=
        mul_nonneg (by linarith) hrho
      linarith
    have hcle : refillClamp cap rate t b
        ≤ b.tokens + (t - b.lastRefill) * (rate / 60) := by
      simp only [refillClamp]
      split_ifs with hlt
      · linarith
      · linarith
    have hc0 : 0 ≤ refillClamp cap rate t b := by
      simp only [refillClamp]
      split_ifs with hlt
      · exact hcap
      · exact hpre
    by_cases hadm : 1 ≤ refillClamp cap rate t b
    · have hstep : allow cap rate t b
          = (true, ⟨refillClamp cap rate t b - 1, t⟩) := by
        unfold allow
        rw [if_pos hadm]
      have h02 : (0 : Rat) ≤ refillClamp cap rate t b - 1 := by linarith
      obtain ⟨ih1, ih2, ih3⟩ :=
        ih ⟨refillClamp cap rate t b - 1, t⟩ h02 hchain
      simp only [runBucket, hstep]
      refine ⟨?_, ih2, ?_⟩
      · have hring :
            (t - b.lastRefill) * (rate / 60)
              + ((runBucket cap rate ⟨refillClamp cap rate t b - 1, t⟩ ts).2.lastRefill - t)
                * (rate / 60)
            = ((runBucket cap rate ⟨refillClamp cap rate t b - 1, t⟩ ts).2.lastRefill
                - b.lastRefill) * (rate / 60) := by
          ring
        simp [runBucket, hstep]
        linarith [ih1]
      · rcases ih3 with hEq | hMem
        · exact Or.inr (by rw [hEq]; exact List.mem_cons_self t ts)
        · exact Or.inr (List.mem_cons_of_mem t hMem)
    · have hstep : allow cap rate t b
          = (false, ⟨refillClamp cap rate t b, t⟩) := by
        unfold allow
        rw [if_neg hadm]
      obtain ⟨ih1, ih2, ih3⟩ :=
        ih ⟨refillClamp cap rate t b, t⟩ hc0 hchain
      simp only [runBucket, hstep]
      refine ⟨?_, ih2, ?_⟩
      · have hring :
            (t - b.lastRefill) * (rate / 60)
              + ((runBucket cap rate ⟨refillClamp cap rate t b, t⟩ ts).2.lastRefill - t)
                * (rate / 60)
            = ((runBucket cap rate ⟨refillClamp cap rate t b, t⟩ ts).2.lastRefill
                - b.lastRefill) * (rate / 60) := by
          ring
        simp [runBucket, hstep]
        linarith [ih1]
      · rcases ih3 with hEq | hMem
        · exact Or.inr (by rw [hEq]; exact List.mem_cons_self t ts)
        · exact Or.inr (List.mem_cons_of_mem t hMem)

/-- C5: the token bucket admits a request exactly when the refilled and
clamped token count is at least one (deducting one token on admission);
across any sequence of requests lying in a 60-second window the number of
admitted requests is at most capacity + rate; and a refused request is
answered 429 with a Retry-After header. -/
theorem rate_limiter_window_bound (cap rate s : Rat) (b : Bucket) (t : Rat)
    (ts : List Rat) (hcap : 0 ≤ cap) (hrate : 0 ≤ rate) (h0 : 0 ≤ b.tokens)
    (hch : List.Chain (· ≤ ·) b.lastRefill (t :: ts))
    (hwin : ∀ x ∈ t :: ts, s ≤ x ∧ x ≤ s + 60) :
    (((runBucket cap rate b (t :: ts)).1 : Rat) ≤ cap + rate)
    ∧ (∀ (now : Rat) (b2 : Bucket),
        ((allow cap rate now b2).1 = true ↔ 1 ≤ refillClamp cap rate now b2)
        ∧ ((allow cap rate now b2).1 = true →
            (allow cap rate now b2).2.tokens
              = refillClamp cap rate now b2 - 1))
    ∧ (∀ (now : Rat) (b2 : Bucket), (allow cap rate now b2).1 = false →
        (withRateLimit cap rate now b2).1 = RLResult.refuse 429 "1") := by
  refine ⟨?_, ?_, ?_⟩
  · rw [List.chain_cons] at hch
    obtain ⟨hbt, hchain⟩ := hch
    obtain ⟨hts1, hts2⟩ := hwin t (List.mem_cons_self t ts)
    have hrho : 0 ≤ rate / 60 := by
      apply div_nonneg hrate
      norm_num
    have hccap : refillClamp cap rate t b ≤ cap := by
      simp only [refillClamp]
      split_ifs with hlt
      · exact le_refl cap
      · exact le_of_not_lt hlt
    have hc0 : 0 ≤ refillClamp cap rate t b := by
      simp only [refillClamp]
      split_ifs with hlt
      · exact hcap
      · have hm : 0 ≤ (t - b.lastRefill) * (rate / 60) :=
          mul_nonneg (by linarith) hrho
        linarith
    have hsixty : (60 : Rat) * (rate / 60) = rate := by
      field_simp
    by_cases hadm : 1 ≤ refillClamp cap rate t b
    · have hstep : allow cap rate t b
          = (true, ⟨refillClamp cap rate t b - 1, t⟩) := by
        unfold allow
        rw [if_pos hadm]
      have h02 : (0 : Rat) ≤ refillClamp cap rate t b - 1 := by linarith
      obtain ⟨p1, p2, p3⟩ := runBucket_potential cap rate hcap hrate ts
        ⟨refillClamp cap rate t b - 1, t⟩ h02 hchain
      have hlastle :
          (runBucket cap rate ⟨refillClamp cap rate t b - 1, t⟩ ts).2.lastRefill
            ≤ s + 60 := by
        rcases p3 with hEq | hMem
        · rw [hEq]
          exact hts2
        · exact (hwin _ (List.mem_cons_of_mem t hMem)).2
      have hrefill :
          ((runBucket cap rate ⟨refillClamp cap rate t b - 1, t⟩ ts).2.lastRefill - t)
            * (rate / 60) ≤ rate := by
        calc ((runBucket cap rate ⟨refillClamp cap rate t b - 1, t⟩ ts).2.lastRefill - t)
              * (rate / 60)
            ≤ 60 * (rate / 60) := by
              apply mul_le_mul_of_nonneg_right _ hrho
              linarith
          _ = rate := hsixty
      simp [runBucket, hstep]
      linarith [p1, p2]
    · have hstep : allow cap rate t b
          = (false, ⟨refillClamp cap rate t b, t⟩) := by
        unfold allow
        rw [if_neg hadm]
      obtain ⟨p1, p2, p3⟩ := runBucket_potential cap rate hcap hrate ts
        ⟨refillClamp cap rate t b, t⟩ hc0 hchain
      have hlastle :
          (runBucket cap rate ⟨refillClamp cap rate t b, t⟩ ts).2.lastRefill
            ≤ s + 60 := by
        rcases p3 with hEq | hMem
        · rw [hEq]
          exact hts2
        · exact (hwin _ (List.mem_cons_of_mem t hMem)).2
      have hrefill :
          ((runBucket cap rate ⟨refillClamp cap rate t b, t⟩ ts).2.lastRefill - t)
            * (rate / 60) ≤ rate := by
        calc ((runBucket cap rate ⟨refillClamp cap rate t b, t⟩ ts).2.lastRefill - t)
              * (rate / 60)
            ≤ 60 * (rate / 60) := by
              apply mul_le_mul_of_nonneg_right _ hrho
              linarith
          _ = rate := hsixty
      simp [runBucket, hstep]
      linarith [p1, p2]
  · intro now b2
    constructor
    · simp only [allow]
      split_ifs with hyes
      · exact iff_of_true rfl hyes
      · exact iff_of_false (by simp) hyes
    · intro hT
      simp only [allow] at hT ⊢
      split_ifs at hT ⊢ with hyes
      rfl
  · intro now b2 hF
    simp only [withRateLimit]
    rw [hF]
    simp

/-- Witness for the C5 theorem on a full bucket receiving one request at
time 0. -/
theorem rate_limiter_window_bound_witness :
    (0 : Rat) ≤ 60
    ∧ ((runBucket 60 60 (Bucket.mk 60 0) [(0 : Rat)]).1 : Rat) ≤ 60 + 60 :=
  ⟨by decide,
   (rate_limiter_window_bound 60 60 0 (Bucket.mk 60 0) 0 [] (by decide)
     (by decide) (by decide)
     (List.Chain.cons (le_refl 0) List.Chain.nil)
     (by
       intro x hx
       rw [List.mem_singleton] at hx
       subst hx
       refine ⟨le_refl 0, ?_⟩
       rw [zero_add]
       decide)).1⟩
